import Mathlib

/-!
Verification of the quota-enforcing metadata store in
`src/worker/src/usage-limiter.ts` (class `UsageLimiter`).

Modelling conventions:
* JavaScript numbers holding byte counts and epoch-millisecond timestamps are
  modelled as `Int` (all values the code manipulates are integers).
* ISO-8601 timestamp strings (`uploadedAt`, `deletedAt`, `createdAt` of notes)
  are modelled by their epoch-millisecond value (`new Date(s).getTime()`),
  an order-preserving encoding which is how the code consumes them.
* Date keys (`YYYY-MM-DD`) stay `String` and are compared lexicographically,
  as in the code.
* JavaScript objects used as string-keyed maps (`reservations`,
  `dailyUploads`) are modelled as association lists in insertion order;
  assignment replaces the value of an existing key in place and appends a
  fresh key at the end, deletion filters the entry out.
* Each handler is a pure function from its request body (plus the wall-clock
  values the code reads via `Date.now()` / `toISOString()`, passed as
  explicit parameters) and the current `StorageData` to a response together
  with the new `StorageData`.
-/

/-- `PhotoMeta` from usage-limiter.ts.  Optional fields are `Option`s. -/
structure PhotoMeta where
  id : String
  filename : String
  note : String
  noteBy : Option String
  uploadedAt : Int
  day : String
  size : Int
  key : String
  thumbnailKey : String
  uploader : Option String
  album : Option String
  favoritedBy : Option (List String)
  deletedAt : Option Int
  deriving Repr, DecidableEq

/-- `Reservation` from usage-limiter.ts. -/
structure Reservation where
  id : String
  fileCount : Int
  totalSize : Int
  createdAt : Int
  committed : Bool
  deriving Repr, DecidableEq

/-- `NoteItem` from usage-limiter.ts. -/
structure NoteItem where
  id : String
  text : String
  done : Bool
  category : String
  createdAt : Int
  createdBy : String
  deriving Repr, DecidableEq

/-- `NextDateInfo` from usage-limiter.ts. -/
structure NextDateInfo where
  date : String
  title : String
  deriving Repr, DecidableEq

/-- `StorageData` from usage-limiter.ts: the single persisted aggregate. -/
structure StorageData where
  photos : List PhotoMeta
  totalBytes : Int
  reservations : List (String × Reservation)
  dailyUploads : List (String × Int)
  notes : List NoteItem
  nextDate : Option NextDateInfo
  deriving Repr, DecidableEq

/-- The empty aggregate produced by `loadData` on first access. -/
def initialData : StorageData :=
  { photos := [], totalBytes := 0, reservations := [], dailyUploads := [],
    notes := [], nextDate := none }

/-- Result of a handler: the JSON body is either `ok` with a payload or
an `ok:false` object carrying an error message. -/
inductive OpResult (α : Type) where
  | ok (val : α)
  | err (msg : String)
  deriving Repr, DecidableEq

def OpResult.isOk {α : Type} : OpResult α → Bool
  | .ok _ => true
  | .err _ => false

/-- JavaScript string `<` (lexicographic).  Modelled on the character list;
`String.lt_iff` shows this is exactly Lean's `String` order. -/
def strLt (a b : String) : Bool := decide (a.data < b.data)

/-- Lookup in a JS object used as a map: value of the first (only) entry with
the given key. -/
def alistLookup {β : Type} (k : String) (l : List (String × β)) : Option β :=
  (l.find? (fun e => e.1 == k)).map (·.2)

/-- Assignment `obj[k] = v` on a JS object used as a map: replaces the value
of an existing key in place, appends a fresh key at the end. -/
def alistSet {β : Type} (k : String) (v : β) (l : List (String × β)) :
    List (String × β) :=
  if l.any (fun e => e.1 == k) then
    l.map (fun e => if e.1 == k then (k, v) else e)
  else l ++ [(k, v)]

/-- `data.dailyUploads[today] || 0`. -/
def countGet (k : String) (l : List (String × Int)) : Int :=
  ((alistLookup k l).getD 0)

/-- `Array.prototype.find` followed by in-place mutation of the found
element: applies `f` to the first element satisfying `p`, returning the
updated element and the updated list, or `none` when no element matches. -/
def modifyFirst {α : Type} (p : α → Bool) (f : α → α) :
    List α → Option (α × List α)
  | [] => none
  | x :: xs =>
    if p x then some (f x, f x :: xs)
    else (modifyFirst p f xs).map (fun r => (r.1, x :: r.2))

/-- `findIndex` followed by `splice(index, 1)`: removes the first element
satisfying `p`, returning it and the remaining list. -/
def removeFirst {α : Type} (p : α → Bool) :
    List α → Option (α × List α)
  | [] => none
  | x :: xs =>
    if p x then some (x, xs)
    else (removeFirst p xs).map (fun r => (r.1, x :: r.2))

/-! ## Handlers -/

/-- Body of a `/reserve` request. -/
structure ReserveBody where
  fileCount : Int
  totalSize : Int
  maxTotalBytes : Int
  maxUploadsPerDay : Int
  deriving Repr, DecidableEq

/-- Sum of `totalSize` over pending (uncommitted, younger than one hour)
reservations, as computed in `handleReserve`. -/
def pendingReservedBytes (now : Int) (rs : List (String × Reservation)) : Int :=
  ((rs.map (·.2)).filter
      (fun r => !r.committed && decide (now - r.createdAt < 3600000))).foldl
    (fun sum r => sum + r.totalSize) 0

/-- `handleReserve`.  `now` is `Date.now()`, `today` is `getTodayKey()`,
`weekAgoKey` is the date key of seven days before `now`, and `newId` is the
freshly generated reservation id. -/
def handleReserve (body : ReserveBody) (now : Int) (today weekAgoKey newId : String)
    (d : StorageData) : OpResult String × StorageData :=
  let todayUploads := countGet today d.dailyUploads
  if todayUploads ≥ body.maxUploadsPerDay then
    (.err ("Daily upload limit reached (" ++ toString body.maxUploadsPerDay ++
      " uploads/day)"), d)
  else
    let pendingReserved := pendingReservedBytes now d.reservations
    let projectedTotal := d.totalBytes + pendingReserved + body.totalSize
    if projectedTotal > body.maxTotalBytes then
      let remaining := body.maxTotalBytes - d.totalBytes - pendingReserved
      (.err ("Not enough storage. " ++ toString (max 0 (remaining / 1024 / 1024)) ++
        " MB remaining."), d)
    else
      let withNew := alistSet newId
        { id := newId, fileCount := body.fileCount, totalSize := body.totalSize,
          createdAt := now, committed := false } d.reservations
      let daily := alistSet today (todayUploads + 1) d.dailyUploads
      let cutoff := now - 7200000
      let sweptRes := withNew.filter (fun e => !decide (e.2.createdAt < cutoff))
      let sweptDaily := daily.filter (fun e => !strLt e.1 weekAgoKey)
      (.ok newId,
       { d with reservations := sweptRes, dailyUploads := sweptDaily })

/-- A photo draft passed to `/commit`:
`Omit<PhotoMeta, "uploader" | "album" | "favoritedBy">`. -/
structure PhotoDraft where
  id : String
  filename : String
  note : String
  noteBy : Option String
  uploadedAt : Int
  day : String
  size : Int
  key : String
  thumbnailKey : String
  deletedAt : Option Int
  deriving Repr, DecidableEq

/-- Body of a `/commit` request. -/
structure CommitBody where
  reservationId : String
  uploader : String
  album : String
  photos : List PhotoDraft
  deriving Repr, DecidableEq

/-- The spread `{ ...p, uploader, album, favoritedBy: [] }` in `handleCommit`. -/
def draftToMeta (uploader album : String) (p : PhotoDraft) : PhotoMeta :=
  { id := p.id, filename := p.filename, note := p.note, noteBy := p.noteBy,
    uploadedAt := p.uploadedAt, day := p.day, size := p.size, key := p.key,
    thumbnailKey := p.thumbnailKey, uploader := some uploader,
    album := some album, favoritedBy := some [], deletedAt := p.deletedAt }

/-- `handleCommit`. -/
def handleCommit (body : CommitBody) (d : StorageData) :
    OpResult Unit × StorageData :=
  match alistLookup body.reservationId d.reservations with
  | none => (.err "Invalid or expired reservation", d)
  | some r =>
    if r.committed then (.err "Reservation already committed", d)
    else
      let photosWithMeta := body.photos.map (draftToMeta body.uploader body.album)
      let addedSize := body.photos.foldl (fun sum p => sum + p.size) 0
      (.ok (),
       { d with
         photos := d.photos ++ photosWithMeta,
         totalBytes := d.totalBytes + addedSize,
         reservations := d.reservations.map (fun e =>
           if e.1 == body.reservationId then (e.1, { e.2 with committed := true })
           else e) })

/-- The toggle in `handleToggleFavorite`: `indexOf`/`splice` removes the first
occurrence, otherwise `push` appends. -/
def toggleFav (user : String) (l : List String) : List String :=
  if l.contains user then l.erase user else l ++ [user]

/-- `handleToggleFavorite`.  Returns the updated `favoritedBy` list. -/
def handleToggleFavorite (photoId user : String) (d : StorageData) :
    OpResult (List String) × StorageData :=
  match modifyFirst (fun p => p.id == photoId)
      (fun p => { p with favoritedBy := some (toggleFav user (p.favoritedBy.getD [])) })
      d.photos with
  | none => (.err "Photo not found", d)
  | some (photo, photos) =>
    (.ok (photo.favoritedBy.getD []), { d with photos := photos })

/-- `handleEditNote`. -/
def handleEditNote (photoId note user : String) (d : StorageData) :
    OpResult (String × Option String) × StorageData :=
  match modifyFirst (fun p => p.id == photoId)
      (fun p => { p with note := note, noteBy := some user }) d.photos with
  | none => (.err "Photo not found", d)
  | some (photo, photos) =>
    (.ok (photo.note, photo.noteBy), { d with photos := photos })

/-- `handleSoftDelete`.  `now` is the current time (`new Date().toISOString()`). -/
def handleSoftDelete (photoId : String) (now : Int) (d : StorageData) :
    OpResult Unit × StorageData :=
  match modifyFirst (fun p => p.id == photoId)
      (fun p => { p with deletedAt := some now }) d.photos with
  | none => (.err "Photo not found", d)
  | some (_, photos) => (.ok (), { d with photos := photos })

/-- `handleRestore`: `delete photo.deletedAt`. -/
def handleRestore (photoId : String) (d : StorageData) :
    OpResult Unit × StorageData :=
  match modifyFirst (fun p => p.id == photoId)
      (fun p => { p with deletedAt := none }) d.photos with
  | none => (.err "Photo not found", d)
  | some (_, photos) => (.ok (), { d with photos := photos })

/-- `handlePermanentDelete`: remove the photo and subtract its size; the
response carries the blob keys for the caller to delete. -/
def handlePermanentDelete (photoId : String) (d : StorageData) :
    OpResult (String × String) × StorageData :=
  match removeFirst (fun p => p.id == photoId) d.photos with
  | none => (.err "Photo not found", d)
  | some (photo, photos) =>
    (.ok (photo.key, photo.thumbnailKey),
     { d with photos := photos, totalBytes := d.totalBytes - photo.size })

/-- The retention test of `autoPurgeOldDeleted`: a photo is kept unless it is
soft-deleted and its `deletedAt` is strictly before `now - 30 days`. -/
def keepPhoto (now : Int) (p : PhotoMeta) : Bool :=
  match p.deletedAt with
  | some t => !decide (t < now - 2592000000)
  | none => true

/-- `autoPurgeOldDeleted` (the recycle sweep): drops every photo failing
`keepPhoto` and subtracts the dropped sizes from `totalBytes`. -/
def autoPurgeOldDeleted (now : Int) (d : StorageData) : StorageData :=
  { d with
    photos := d.photos.filter (keepPhoto now),
    totalBytes := d.totalBytes -
      ((d.photos.filter (fun p => !keepPhoto now p)).foldl
        (fun sum p => sum + p.size) 0) }

/-- `handleGetGallery`: sweep, then list non-deleted photos sorted by
`uploadedAt` descending, with the (post-sweep) total. -/
def handleGetGallery (now : Int) (d : StorageData) :
    (List PhotoMeta × Int × Nat) × StorageData :=
  let d1 := autoPurgeOldDeleted now d
  let photos := (d1.photos.filter (fun p => p.deletedAt.isNone)).mergeSort
    (fun a b => decide (b.uploadedAt ≤ a.uploadedAt))
  ((photos, d1.totalBytes, photos.length), d1)

/-- `handleGetRecycleBin`: deleted photos sorted by `deletedAt` descending. -/
def handleGetRecycleBin (d : StorageData) : List PhotoMeta :=
  (d.photos.filter (fun p => !p.deletedAt.isNone)).mergeSort
    (fun a b => decide (b.deletedAt.getD 0 ≤ a.deletedAt.getD 0))

/-- `handleGetUsage`: `totalBytes`, photo count, and today's upload count. -/
def handleGetUsage (today : String) (d : StorageData) : Int × Nat × Int :=
  (d.totalBytes, d.photos.length, countGet today d.dailyUploads)

/-- `handleEditDate`.  `dayTime` is `new Date(body.day).getTime()`. -/
def handleEditDate (photoId day : String) (dayTime : Int) (d : StorageData) :
    OpResult String × StorageData :=
  match modifyFirst (fun p => p.id == photoId)
      (fun p => { p with day := day, uploadedAt := dayTime }) d.photos with
  | none => (.err "Photo not found", d)
  | some (photo, photos) => (.ok photo.day, { d with photos := photos })

/-- `handleAddNote`.  `newId` and `now` are the generated id and timestamp. -/
def handleAddNote (text user : String) (category : Option String)
    (newId : String) (now : Int) (d : StorageData) :
    OpResult NoteItem × StorageData :=
  let newNote : NoteItem :=
    { id := newId, text := text, done := false,
      category := category.getD "todo", createdAt := now, createdBy := user }
  (.ok newNote, { d with notes := newNote :: d.notes })

/-- `handleToggleNote`. -/
def handleToggleNote (noteId : String) (d : StorageData) :
    OpResult Bool × StorageData :=
  match modifyFirst (fun n => n.id == noteId)
      (fun n => { n with done := !n.done }) d.notes with
  | none => (.err "Note not found", d)
  | some (n, notes) => (.ok n.done, { d with notes := notes })

/-- `handleDeleteNote`. -/
def handleDeleteNote (noteId : String) (d : StorageData) :
    OpResult Unit × StorageData :=
  match removeFirst (fun n => n.id == noteId) d.notes with
  | none => (.err "Note not found", d)
  | some (_, notes) => (.ok (), { d with notes := notes })

/-- `handleSetNextDate`. -/
def handleSetNextDate (date title : String) (d : StorageData) :
    OpResult NextDateInfo × StorageData :=
  let nd : NextDateInfo := { date := date, title := title }
  (.ok nd, { d with nextDate := some nd })

/-- `handleDeleteNextDate`. -/
def handleDeleteNextDate (d : StorageData) : OpResult Unit × StorageData :=
  (.ok (), { d with nextDate := none })

/-! ## The transition system

Every route of `fetch` as a single step relation on the aggregate, so that
"reachable state" can be stated.  Read-only routes leave the state unchanged
except for the gallery read, which runs the auto-purge sweep first. -/

/-- One request to the durable object, with the wall-clock values the handler
reads supplied as data. -/
inductive UsageAction where
  | reserve (body : ReserveBody) (now : Int) (today weekAgoKey newId : String)
  | commit (body : CommitBody)
  | toggleFavorite (photoId user : String)
  | editNote (photoId note user : String)
  | softDelete (photoId : String) (now : Int)
  | restore (photoId : String)
  | purge (photoId : String)
  | gallery (now : Int)
  | recycle
  | usage (today : String)
  | editDate (photoId day : String) (dayTime : Int)
  | addNote (text user : String) (category : Option String) (newId : String) (now : Int)
  | toggleNote (noteId : String)
  | deleteNote (noteId : String)
  | getNotes
  | getNextDate
  | setNextDate (date title : String)
  | deleteNextDate

/-- The state transformation each route performs. -/
def applyAction : UsageAction → StorageData → StorageData
  | .reserve body now today weekAgoKey newId, d =>
    (handleReserve body now today weekAgoKey newId d).2
  | .commit body, d => (handleCommit body d).2
  | .toggleFavorite pid user, d => (handleToggleFavorite pid user d).2
  | .editNote pid note user, d => (handleEditNote pid note user d).2
  | .softDelete pid now, d => (handleSoftDelete pid now d).2
  | .restore pid, d => (handleRestore pid d).2
  | .purge pid, d => (handlePermanentDelete pid d).2
  | .gallery now, d => (handleGetGallery now d).2
  | .recycle, d => d
  | .usage _, d => d
  | .editDate pid day dayTime, d => (handleEditDate pid day dayTime d).2
  | .addNote text user category newId now, d =>
    (handleAddNote text user category newId now d).2
  | .toggleNote nid, d => (handleToggleNote nid d).2
  | .deleteNote nid, d => (handleDeleteNote nid d).2
  | .getNotes, d => d
  | .getNextDate, d => d
  | .setNextDate date title, d => (handleSetNextDate date title d).2
  | .deleteNextDate, d => (handleDeleteNextDate d).2

/-- States reachable from the freshly initialised aggregate. -/
inductive Reachable : StorageData → Prop where
  | init : Reachable initialData
  | step (a : UsageAction) {d : StorageData} : Reachable d → Reachable (applyAction a d)

/-- Sum of the `size` field over a photo list. -/
def photoSum (l : List PhotoMeta) : Int := (l.map PhotoMeta.size).sum

/-- The global accounting invariant: `totalBytes` is the exact size sum of
the photos currently stored, soft-deleted or not. -/
def TotalOk (d : StorageData) : Prop := d.totalBytes = photoSum d.photos

/-! ## Concrete sample data (used to evaluate the operations on inputs) -/

/-- An active photo of 100 bytes. -/
def samplePhoto : PhotoMeta :=
  { id := "p1", filename := "a.jpg", note := "", noteBy := none,
    uploadedAt := 5, day := "2024-01-01", size := 100, key := "k1",
    thumbnailKey := "t1", uploader := some "arda", album := some "us",
    favoritedBy := some [], deletedAt := none }

/-- A state holding just the active `samplePhoto`. -/
def sampleState : StorageData :=
  { photos := [samplePhoto], totalBytes := 100, reservations := [],
    dailyUploads := [], notes := [], nextDate := none }

/-- A state holding one photo soft-deleted at time 0. -/
def sampleDeletedState : StorageData :=
  { photos := [{ samplePhoto with id := "p3", deletedAt := some 0 }],
    totalBytes := 100, reservations := [], dailyUploads := [],
    notes := [], nextDate := none }

/-- A state with one pending (uncommitted) reservation of 100 bytes. -/
def sampleReservedState : StorageData :=
  { photos := [], totalBytes := 0,
    reservations := [("r1",
      { id := "r1", fileCount := 1, totalSize := 100, createdAt := 0,
        committed := false })],
    dailyUploads := [], notes := [], nextDate := none }

/-- A commit request for reservation `"r1"` carrying no photos. -/
def sampleCommitBody : CommitBody :=
  { reservationId := "r1", uploader := "arda", album := "us", photos := [] }

/-- The reservation record `handleReserve` creates. -/
def mkReservation (newId : String) (fileCount totalSize now : Int) : Reservation :=
  { id := newId, fileCount := fileCount, totalSize := totalSize,
    createdAt := now, committed := false }

/-- Reserve request: 1 file of 100 bytes against a 250-byte cap, generous
daily limit. -/
def reserveBody100 : ReserveBody :=
  { fileCount := 1, totalSize := 100, maxTotalBytes := 250,
    maxUploadsPerDay := 100 }

/-- State after one 100-byte reservation against the 250-byte cap. -/
def reserveState1 : StorageData :=
  (handleReserve reserveBody100 0 "2024-01-10" "2024-01-03" "r1" initialData).2

/-- State after two 100-byte reservations against the 250-byte cap. -/
def reserveState2 : StorageData :=
  (handleReserve reserveBody100 0 "2024-01-10" "2024-01-03" "r2" reserveState1).2

/-- A 1000-byte photo draft. -/
def bigDraft : PhotoDraft :=
  { id := "x1", filename := "x.jpg", note := "", noteBy := none,
    uploadedAt := 0, day := "2024-01-01", size := 1000, key := "kx",
    thumbnailKey := "tx", deletedAt := none }

/-- Reserve request for 0 bytes against the 250-byte cap. -/
def reserveBody0 : ReserveBody :=
  { fileCount := 1, totalSize := 0, maxTotalBytes := 250,
    maxUploadsPerDay := 100 }

/-- State after reserving 0 bytes (admitted against the 250-byte cap). -/
def zeroReserveState : StorageData :=
  (handleReserve reserveBody0 0 "2024-01-10" "2024-01-03" "r0" initialData).2

/-- Commit of the 1000-byte draft against the 0-byte reservation. -/
def overCommitBody : CommitBody :=
  { reservationId := "r0", uploader := "arda", album := "us",
    photos := [bigDraft] }

/-! ## Helper lemmas -/

theorem foldl_add_eq {α : Type} (f : α → Int) (l : List α) (a : Int) :
    l.foldl (fun sum x => sum + f x) a = a + (l.map f).sum := by
  induction l generalizing a with
  | nil => simp
  | cons x xs ih => simp [List.foldl_cons, ih, add_assoc]

theorem modifyFirst_sum {α : Type} (p : α → Bool) (f : α → α) (g : α → Int) :
    ∀ {l l' : List α} {y : α}, modifyFirst p f l = some (y, l') →
      (∀ x, g (f x) = g x) →
      (l'.map g).sum = (l.map g).sum := by
  intro l
  induction l with
  | nil => intro l' y h _; simp [modifyFirst] at h
  | cons x xs ih =>
    intro l' y h hg
    by_cases hp : p x
    · simp [modifyFirst, hp] at h
      rw [← h.2]
      simp [hg]
    · simp only [modifyFirst, hp, if_neg, Bool.false_eq_true, if_false,
        Option.map_eq_some'] at h
      obtain ⟨r, hr, hry⟩ := h
      cases hry
      simp [ih hr hg]

theorem removeFirst_sum {α : Type} (p : α → Bool) (g : α → Int) :
    ∀ {l l' : List α} {y : α}, removeFirst p l = some (y, l') →
      (l.map g).sum = g y + (l'.map g).sum := by
  intro l
  induction l with
  | nil => intro l' y h; simp [removeFirst] at h
  | cons x xs ih =>
    intro l' y h
    by_cases hp : p x
    · simp [removeFirst, hp] at h
      obtain ⟨rfl, rfl⟩ := h
      simp
    · simp only [removeFirst, hp, Bool.false_eq_true, if_false,
        Option.map_eq_some'] at h
      obtain ⟨r, hr, hry⟩ := h
      cases hry
      simp [ih hr]
      ring

theorem removeFirst_find? {α : Type} (p : α → Bool) :
    ∀ {l l' : List α} {y : α}, removeFirst p l = some (y, l') →
      l.find? p = some y := by
  intro l
  induction l with
  | nil => intro l' y h; simp [removeFirst] at h
  | cons x xs ih =>
    intro l' y h
    by_cases hp : p x
    · simp [removeFirst, hp] at h
      obtain ⟨rfl, rfl⟩ := h
      simp [List.find?_cons_of_pos _ hp]
    · simp only [removeFirst, hp, Bool.false_eq_true, if_false,
        Option.map_eq_some'] at h
      obtain ⟨r, hr, hry⟩ := h
      cases hry
      rw [List.find?_cons_of_neg _ hp]
      exact ih hr

theorem find?_removeFirst {α : Type} (p : α → Bool) :
    ∀ {l : List α} {x : α}, l.find? p = some x →
      ∃ l', removeFirst p l = some (x, l') := by
  intro l
  induction l with
  | nil => intro x h; simp at h
  | cons z zs ih =>
    intro x h
    by_cases hp : p z
    · rw [List.find?_cons_of_pos _ hp] at h
      injection h with h
      subst h
      exact ⟨zs, by simp [removeFirst, hp]⟩
    · rw [List.find?_cons_of_neg _ hp] at h
      obtain ⟨l', hl'⟩ := ih h
      exact ⟨z :: l', by simp [removeFirst, hp, hl']⟩

theorem modifyFirst_of_find? {α : Type} (p : α → Bool) (f : α → α) :
    ∀ {l : List α} {x : α}, l.find? p = some x →
      ∃ l', modifyFirst p f l = some (f x, l') ∧
        (p (f x) = true → l'.find? p = some (f x)) := by
  intro l
  induction l with
  | nil => intro x h; simp at h
  | cons z zs ih =>
    intro x h
    by_cases hp : p z
    · rw [List.find?_cons_of_pos _ hp] at h
      injection h with h
      subst h
      refine ⟨f z :: zs, by simp [modifyFirst, hp], ?_⟩
      intro hfx
      simp [List.find?_cons_of_pos _ hfx]
    · rw [List.find?_cons_of_neg _ hp] at h
      obtain ⟨l', hl', hfind⟩ := ih h
      refine ⟨z :: l', by simp [modifyFirst, hp, hl'], ?_⟩
      intro hfx
      rw [List.find?_cons_of_neg _ hp]
      exact hfind hfx

theorem modifyFirst_roundtrip {α : Type} (p : α → Bool) (f g : α → α) :
    ∀ {l : List α} {x : α}, l.find? p = some x →
      p (f x) = true → g (f x) = x →
      ∃ l', modifyFirst p f l = some (f x, l') ∧
        modifyFirst p g l' = some (x, l) := by
  intro l
  induction l with
  | nil => intro x h; simp at h
  | cons z zs ih =>
    intro x h hpf hgf
    by_cases hp : p z
    · rw [List.find?_cons_of_pos _ hp] at h
      injection h with h
      subst h
      refine ⟨f z :: zs, by simp [modifyFirst, hp], ?_⟩
      simp [modifyFirst, hpf, hgf]
    · rw [List.find?_cons_of_neg _ hp] at h
      obtain ⟨l', hl', hback⟩ := ih h hpf hgf
      exact ⟨z :: l', by simp [modifyFirst, hp, hl'],
        by simp [modifyFirst, hp, hback]⟩

theorem modifyFirst_fix {α : Type} (p : α → Bool) (f : α → α) :
    ∀ {l : List α} {x : α}, l.find? p = some x → f x = x →
      modifyFirst p f l = some (x, l) := by
  intro l
  induction l with
  | nil => intro x h; simp at h
  | cons z zs ih =>
    intro x h hfx
    by_cases hp : p z
    · rw [List.find?_cons_of_pos _ hp] at h
      injection h with h
      subst h
      simp [modifyFirst, hp, hfx]
    · rw [List.find?_cons_of_neg _ hp] at h
      simp [modifyFirst, hp, ih h hfx]

theorem photoSum_append (l₁ l₂ : List PhotoMeta) :
    photoSum (l₁ ++ l₂) = photoSum l₁ + photoSum l₂ := by
  simp [photoSum]

theorem handleReserve_photos (body : ReserveBody) (now : Int)
    (today weekAgoKey newId : String) (d : StorageData) :
    (handleReserve body now today weekAgoKey newId d).2.photos = d.photos ∧
    (handleReserve body now today weekAgoKey newId d).2.totalBytes =
      d.totalBytes := by
  unfold handleReserve
  dsimp only
  split_ifs <;> simp

theorem handleCommit_none (body : CommitBody) (d : StorageData)
    (hl : alistLookup body.reservationId d.reservations = none) :
    handleCommit body d = (.err "Invalid or expired reservation", d) := by
  unfold handleCommit
  rw [hl]

theorem handleCommit_committed (body : CommitBody) (d : StorageData)
    (r : Reservation)
    (hl : alistLookup body.reservationId d.reservations = some r)
    (hc : r.committed = true) :
    handleCommit body d = (.err "Reservation already committed", d) := by
  unfold handleCommit
  rw [hl]
  simp [hc]

theorem handleCommit_uncommitted (body : CommitBody) (d : StorageData)
    (r : Reservation)
    (hl : alistLookup body.reservationId d.reservations = some r)
    (hc : r.committed = false) :
    handleCommit body d = (.ok (), { d with
      photos := d.photos ++ body.photos.map (draftToMeta body.uploader body.album),
      totalBytes := d.totalBytes + (body.photos.map PhotoDraft.size).sum,
      reservations := d.reservations.map (fun e =>
        if e.1 == body.reservationId then (e.1, { e.2 with committed := true })
        else e) }) := by
  unfold handleCommit
  rw [hl]
  simp [hc, foldl_add_eq PhotoDraft.size body.photos 0]

theorem handleCommit_err (body : CommitBody) (d : StorageData)
    (h : (handleCommit body d).1.isOk = false) :
    (handleCommit body d).2 = d := by
  cases hl : alistLookup body.reservationId d.reservations with
  | none => rw [handleCommit_none body d hl]
  | some r =>
    by_cases hc : r.committed
    · rw [handleCommit_committed body d r hl hc]
    · rw [handleCommit_uncommitted body d r hl (by simpa using hc)] at h
      simp [OpResult.isOk] at h

theorem handleCommit_ok (body : CommitBody) (d : StorageData)
    (h : (handleCommit body d).1.isOk = true) :
    (handleCommit body d).2.photos =
      d.photos ++ body.photos.map (draftToMeta body.uploader body.album) ∧
    (handleCommit body d).2.totalBytes =
      d.totalBytes + (body.photos.map PhotoDraft.size).sum := by
  cases hl : alistLookup body.reservationId d.reservations with
  | none => rw [handleCommit_none body d hl] at h; simp [OpResult.isOk] at h
  | some r =>
    by_cases hc : r.committed
    · rw [handleCommit_committed body d r hl hc] at h
      simp [OpResult.isOk] at h
    · rw [handleCommit_uncommitted body d r hl (by simpa using hc)]
      exact ⟨rfl, rfl⟩

theorem draftToMeta_photoSum (uploader album : String) (l : List PhotoDraft) :
    photoSum (l.map (draftToMeta uploader album)) =
      (l.map PhotoDraft.size).sum := by
  have hfun : PhotoMeta.size ∘ draftToMeta uploader album = PhotoDraft.size := rfl
  simp [photoSum, List.map_map, hfun]

theorem handleToggleFavorite_photoSum (pid user : String) (d : StorageData) :
    photoSum (handleToggleFavorite pid user d).2.photos = photoSum d.photos ∧
    (handleToggleFavorite pid user d).2.totalBytes = d.totalBytes := by
  unfold handleToggleFavorite
  cases hm : modifyFirst (fun p : PhotoMeta => p.id == pid)
      (fun p : PhotoMeta => { p with favoritedBy := some (toggleFav user (p.favoritedBy.getD [])) })
      d.photos with
  | none => simp
  | some r =>
    obtain ⟨y, l'⟩ := r
    refine ⟨?_, by simp⟩
    simpa [photoSum] using
      modifyFirst_sum _ _ PhotoMeta.size hm (fun x => rfl)

theorem handleEditNote_photoSum (pid note user : String) (d : StorageData) :
    photoSum (handleEditNote pid note user d).2.photos = photoSum d.photos ∧
    (handleEditNote pid note user d).2.totalBytes = d.totalBytes := by
  unfold handleEditNote
  cases hm : modifyFirst (fun p : PhotoMeta => p.id == pid)
      (fun p : PhotoMeta => { p with note := note, noteBy := some user })
      d.photos with
  | none => simp
  | some r =>
    obtain ⟨y, l'⟩ := r
    refine ⟨?_, by simp⟩
    simpa [photoSum] using
      modifyFirst_sum _ _ PhotoMeta.size hm (fun x => rfl)

theorem handleSoftDelete_photoSum (pid : String) (now : Int) (d : StorageData) :
    photoSum (handleSoftDelete pid now d).2.photos = photoSum d.photos ∧
    (handleSoftDelete pid now d).2.totalBytes = d.totalBytes := by
  unfold handleSoftDelete
  cases hm : modifyFirst (fun p : PhotoMeta => p.id == pid)
      (fun p : PhotoMeta => { p with deletedAt := some now }) d.photos with
  | none => simp
  | some r =>
    obtain ⟨y, l'⟩ := r
    refine ⟨?_, by simp⟩
    simpa [photoSum] using
      modifyFirst_sum _ _ PhotoMeta.size hm (fun x => rfl)

theorem handleRestore_photoSum (pid : String) (d : StorageData) :
    photoSum (handleRestore pid d).2.photos = photoSum d.photos ∧
    (handleRestore pid d).2.totalBytes = d.totalBytes := by
  unfold handleRestore
  cases hm : modifyFirst (fun p : PhotoMeta => p.id == pid)
      (fun p : PhotoMeta => { p with deletedAt := none }) d.photos with
  | none => simp
  | some r =>
    obtain ⟨y, l'⟩ := r
    refine ⟨?_, by simp⟩
    simpa [photoSum] using
      modifyFirst_sum _ _ PhotoMeta.size hm (fun x => rfl)

theorem handleEditDate_photoSum (pid day : String) (dayTime : Int)
    (d : StorageData) :
    photoSum (handleEditDate pid day dayTime d).2.photos = photoSum d.photos ∧
    (handleEditDate pid day dayTime d).2.totalBytes = d.totalBytes := by
  unfold handleEditDate
  cases hm : modifyFirst (fun p : PhotoMeta => p.id == pid)
      (fun p : PhotoMeta => { p with day := day, uploadedAt := dayTime })
      d.photos with
  | none => simp
  | some r =>
    obtain ⟨y, l'⟩ := r
    refine ⟨?_, by simp⟩
    simpa [photoSum] using
      modifyFirst_sum _ _ PhotoMeta.size hm (fun x => rfl)

theorem handlePermanentDelete_some (pid : String) (d : StorageData)
    (y : PhotoMeta) (l' : List PhotoMeta)
    (h : removeFirst (fun p => p.id == pid) d.photos = some (y, l')) :
    (handlePermanentDelete pid d).1 = .ok (y.key, y.thumbnailKey) ∧
    (handlePermanentDelete pid d).2.photos = l' ∧
    (handlePermanentDelete pid d).2.totalBytes = d.totalBytes - y.size ∧
    photoSum d.photos = y.size + photoSum l' := by
  unfold handlePermanentDelete
  rw [h]
  exact ⟨rfl, rfl, rfl, removeFirst_sum _ PhotoMeta.size h⟩

theorem handlePermanentDelete_none (pid : String) (d : StorageData)
    (h : removeFirst (fun p => p.id == pid) d.photos = none) :
    handlePermanentDelete pid d = (.err "Photo not found", d) := by
  unfold handlePermanentDelete
  rw [h]

theorem autoPurge_state (now : Int) (d : StorageData) :
    (autoPurgeOldDeleted now d).photos = d.photos.filter (keepPhoto now) ∧
    (autoPurgeOldDeleted now d).totalBytes =
      d.totalBytes - photoSum (d.photos.filter (fun p => !keepPhoto now p)) := by
  refine ⟨rfl, ?_⟩
  simp [autoPurgeOldDeleted, photoSum,
    foldl_add_eq PhotoMeta.size (d.photos.filter (fun p => !keepPhoto now p)) 0]

theorem sum_filter_partition {α : Type} (q : α → Bool) (g : α → Int)
    (l : List α) :
    ((l.filter q).map g).sum + ((l.filter (fun x => !q x)).map g).sum =
      (l.map g).sum := by
  induction l with
  | nil => simp
  | cons x xs ih =>
    by_cases hq : q x
    · simp [List.filter_cons, hq, ← ih]
      ring
    · simp only [List.filter_cons, hq, Bool.false_eq_true, if_false,
        Bool.not_false, if_true, List.map_cons, List.sum_cons, List.map,
        Bool.not_eq_true']
      rw [← ih]
      ring

theorem totalOk_step (a : UsageAction) (d : StorageData) (h : TotalOk d) :
    TotalOk (applyAction a d) := by
  cases a with
  | reserve body now today weekAgoKey newId =>
    show TotalOk (handleReserve body now today weekAgoKey newId d).2
    have hr := handleReserve_photos body now today weekAgoKey newId d
    unfold TotalOk
    rw [hr.1, hr.2]
    exact h
  | commit body =>
    show TotalOk (handleCommit body d).2
    by_cases hok : (handleCommit body d).1.isOk = true
    · have hc := handleCommit_ok body d hok
      unfold TotalOk
      rw [hc.1, hc.2, photoSum_append, draftToMeta_photoSum, h]
    · have hc := handleCommit_err body d (by simpa using hok)
      unfold TotalOk
      rw [hc]
      exact h
  | toggleFavorite pid user =>
    show TotalOk (handleToggleFavorite pid user d).2
    have hr := handleToggleFavorite_photoSum pid user d
    unfold TotalOk
    rw [hr.1, hr.2]
    exact h
  | editNote pid note user =>
    show TotalOk (handleEditNote pid note user d).2
    have hr := handleEditNote_photoSum pid note user d
    unfold TotalOk
    rw [hr.1, hr.2]
    exact h
  | softDelete pid now =>
    show TotalOk (handleSoftDelete pid now d).2
    have hr := handleSoftDelete_photoSum pid now d
    unfold TotalOk
    rw [hr.1, hr.2]
    exact h
  | restore pid =>
    show TotalOk (handleRestore pid d).2
    have hr := handleRestore_photoSum pid d
    unfold TotalOk
    rw [hr.1, hr.2]
    exact h
  | purge pid =>
    show TotalOk (handlePermanentDelete pid d).2
    cases hrem : removeFirst (fun p : PhotoMeta => p.id == pid) d.photos with
    | none =>
      unfold TotalOk
      rw [handlePermanentDelete_none pid d hrem]
      exact h
    | some r =>
      obtain ⟨y, l'⟩ := r
      have hp := handlePermanentDelete_some pid d y l' hrem
      unfold TotalOk
      rw [hp.2.1, hp.2.2.1, h, hp.2.2.2]
      ring
  | gallery now =>
    show TotalOk (autoPurgeOldDeleted now d)
    have ha := autoPurge_state now d
    have hpart := sum_filter_partition (keepPhoto now) PhotoMeta.size d.photos
    unfold TotalOk
    rw [ha.1, ha.2, h]
    unfold TotalOk at h
    simp only [photoSum] at *
    linarith
  | recycle => exact h
  | usage today => exact h
  | editDate pid day dayTime =>
    show TotalOk (handleEditDate pid day dayTime d).2
    have hr := handleEditDate_photoSum pid day dayTime d
    unfold TotalOk
    rw [hr.1, hr.2]
    exact h
  | addNote text user category newId now =>
    show TotalOk (handleAddNote text user category newId now d).2
    exact h
  | toggleNote nid =>
    show TotalOk (handleToggleNote nid d).2
    unfold handleToggleNote
    cases hm : modifyFirst (fun n : NoteItem => n.id == nid)
        (fun n : NoteItem => { n with done := !n.done }) d.notes with
    | none => exact h
    | some r =>
      obtain ⟨y, l'⟩ := r
      exact h
  | deleteNote nid =>
    show TotalOk (handleDeleteNote nid d).2
    unfold handleDeleteNote
    cases hm : removeFirst (fun n : NoteItem => n.id == nid) d.notes with
    | none => exact h
    | some r =>
      obtain ⟨y, l'⟩ := r
      exact h
  | getNotes => exact h
  | getNextDate => exact h
  | setNextDate date title =>
    show TotalOk (handleSetNextDate date title d).2
    exact h
  | deleteNextDate =>
    show TotalOk (handleDeleteNextDate d).2
    exact h

theorem totalOk_reachable (d : StorageData) (h : Reachable d) : TotalOk d := by
  induction h with
  | init => simp [TotalOk, initialData, photoSum]
  | step a _ ih => exact totalOk_step a _ ih

/-- C1: in every reachable state `totalBytes` equals the exact sum of `size`
over all stored photos (soft-deleted or not); every route preserves the
equality; commit is the only route that changes the photo size sum upward
(by exactly the drafts' total) and manual purge / the automatic sweep are the
only ones that change it downward (by exactly the removed sizes) — every
other route leaves the size sum untouched. -/
theorem totalBytes_eq_photoSum_invariant :
    TotalOk initialData ∧
    (∀ (a : UsageAction) (d : StorageData), TotalOk d → TotalOk (applyAction a d)) ∧
    (∀ d : StorageData, Reachable d → TotalOk d) ∧
    (∀ (body : ReserveBody) (now : Int) (today weekAgoKey newId : String)
        (d : StorageData),
      (handleReserve body now today weekAgoKey newId d).2.photos = d.photos) ∧
    (∀ (body : CommitBody) (d : StorageData), (handleCommit body d).1.isOk = true →
      photoSum (handleCommit body d).2.photos =
        photoSum d.photos + (body.photos.map PhotoDraft.size).sum) ∧
    (∀ (body : CommitBody) (d : StorageData), (handleCommit body d).1.isOk = false →
      (handleCommit body d).2 = d) ∧
    (∀ (pid : String) (d : StorageData) (y : PhotoMeta) (l' : List PhotoMeta),
      removeFirst (fun p => p.id == pid) d.photos = some (y, l') →
      photoSum (handlePermanentDelete pid d).2.photos = photoSum d.photos - y.size) ∧
    (∀ (now : Int) (d : StorageData),
      photoSum (autoPurgeOldDeleted now d).photos =
        photoSum d.photos - photoSum (d.photos.filter (fun p => !keepPhoto now p))) ∧
    (∀ (pid user : String) (d : StorageData),
      photoSum (handleToggleFavorite pid user d).2.photos = photoSum d.photos) ∧
    (∀ (pid note user : String) (d : StorageData),
      photoSum (handleEditNote pid note user d).2.photos = photoSum d.photos) ∧
    (∀ (pid : String) (now : Int) (d : StorageData),
      photoSum (handleSoftDelete pid now d).2.photos = photoSum d.photos) ∧
    (∀ (pid : String) (d : StorageData),
      photoSum (handleRestore pid d).2.photos = photoSum d.photos) ∧
    (∀ (pid day : String) (t : Int) (d : StorageData),
      photoSum (handleEditDate pid day t d).2.photos = photoSum d.photos) := by
  refine ⟨by simp [TotalOk, initialData, photoSum], totalOk_step, totalOk_reachable,
    ?_, ?_, ?_, ?_, ?_, ?_, ?_, ?_, ?_, ?_⟩
  · intro body now today weekAgoKey newId d
    exact (handleReserve_photos body now today weekAgoKey newId d).1
  · intro body d hok
    rw [(handleCommit_ok body d hok).1, photoSum_append, draftToMeta_photoSum]
  · intro body d herr
    exact handleCommit_err body d herr
  · intro pid d y l' hrem
    have hp := handlePermanentDelete_some pid d y l' hrem
    rw [hp.2.1, hp.2.2.2]
    ring
  · intro now d
    have ha := autoPurge_state now d
    have hpart := sum_filter_partition (keepPhoto now) PhotoMeta.size d.photos
    rw [ha.1]
    simp only [photoSum] at *
    linarith
  · intro pid user d
    exact (handleToggleFavorite_photoSum pid user d).1
  · intro pid note user d
    exact (handleEditNote_photoSum pid note user d).1
  · intro pid now d
    exact (handleSoftDelete_photoSum pid now d).1
  · intro pid d
    exact (handleRestore_photoSum pid d).1
  · intro pid day t d
    exact (handleEditDate_photoSum pid day t d).1

/-- Witness for C1 at a concrete state: the invariant holds initially and is
kept by a concrete gallery sweep step. -/
theorem totalBytes_eq_photoSum_invariant_witness :
    TotalOk (applyAction (UsageAction.gallery 0) initialData) ∧
    Reachable (applyAction (UsageAction.gallery 0) initialData) ∧
    TotalOk initialData :=
  ⟨totalBytes_eq_photoSum_invariant.2.1 (UsageAction.gallery 0) initialData rfl,
   Reachable.step (UsageAction.gallery 0) Reachable.init,
   totalBytes_eq_photoSum_invariant.1⟩

theorem handleSoftDelete_eq (pid : String) (now : Int) (d : StorageData)
    (y : PhotoMeta) (l' : List PhotoMeta)
    (h : modifyFirst (fun p : PhotoMeta => p.id == pid)
      (fun p => { p with deletedAt := some now }) d.photos = some (y, l')) :
    handleSoftDelete pid now d = (.ok (), { d with photos := l' }) := by
  unfold handleSoftDelete
  rw [h]

theorem handleRestore_eq (pid : String) (d : StorageData)
    (y : PhotoMeta) (l' : List PhotoMeta)
    (h : modifyFirst (fun p : PhotoMeta => p.id == pid)
      (fun p => { p with deletedAt := none }) d.photos = some (y, l')) :
    handleRestore pid d = (.ok (), { d with photos := l' }) := by
  unfold handleRestore
  rw [h]

theorem handleToggleFavorite_eq (pid user : String) (d : StorageData)
    (y : PhotoMeta) (l' : List PhotoMeta)
    (h : modifyFirst (fun p : PhotoMeta => p.id == pid)
      (fun p => { p with favoritedBy := some (toggleFav user (p.favoritedBy.getD [])) })
      d.photos = some (y, l')) :
    handleToggleFavorite pid user d =
      (.ok (y.favoritedBy.getD []), { d with photos := l' }) := by
  unfold handleToggleFavorite
  rw [h]

/-! ## C4: at most one successful commit per reservation id -/

theorem alistLookup_mark (k : String) (l : List (String × Reservation)) :
    alistLookup k (l.map (fun e =>
        if e.1 == k then (e.1, { e.2 with committed := true }) else e)) =
      (alistLookup k l).map (fun r => { r with committed := true }) := by
  induction l with
  | nil => rfl
  | cons e l ih =>
    by_cases he : (e.1 == k) = true
    · unfold alistLookup
      simp only [List.map_cons, if_pos he]
      have h1 : (fun x : String × Reservation => x.1 == k)
          (e.1, { e.2 with committed := true }) = true := he
      have h2 : (fun x : String × Reservation => x.1 == k) e = true := he
      rw [@List.find?_cons_of_pos (String × Reservation)
          (fun x => x.1 == k) (e.1, { e.2 with committed := true }) _ h1,
        @List.find?_cons_of_pos (String × Reservation) (fun x => x.1 == k) e _ h2]
      rfl
    · unfold alistLookup at ih ⊢
      simp only [List.map_cons, if_neg he]
      rw [List.find?_cons_of_neg _ (by simpa using he),
        List.find?_cons_of_neg _ (by simpa using he)]
      exact ih

/-- C4: after a successful commit of a reservation id, a second commit
attempt with the same id returns the `AlreadyCommittedError` response and
leaves the aggregate (hence `totalBytes` and `photos`) unchanged; committing
an id absent from the reservations map returns the not-found error and also
leaves the aggregate unchanged — so at most one commit per reservation id
ever succeeds. -/
theorem commit_at_most_once_per_reservation
    (body body2 : CommitBody) (d : StorageData)
    (hid : body2.reservationId = body.reservationId)
    (hok : (handleCommit body d).1.isOk = true) :
    handleCommit body2 (handleCommit body d).2 =
      (.err "Reservation already committed", (handleCommit body d).2) ∧
    (∀ (body3 : CommitBody) (e : StorageData),
      alistLookup body3.reservationId e.reservations = none →
      handleCommit body3 e = (.err "Invalid or expired reservation", e)) := by
  refine ⟨?_, fun body3 e he => handleCommit_none body3 e he⟩
  cases hl : alistLookup body.reservationId d.reservations with
  | none => rw [handleCommit_none body d hl] at hok; simp [OpResult.isOk] at hok
  | some r =>
    by_cases hc : r.committed
    · rw [handleCommit_committed body d r hl hc] at hok
      simp [OpResult.isOk] at hok
    · rw [handleCommit_uncommitted body d r hl (by simpa using hc)]
      refine handleCommit_committed body2 _ { r with committed := true } ?_ rfl
      rw [hid]
      show alistLookup body.reservationId
        (d.reservations.map (fun e =>
          if e.1 == body.reservationId then (e.1, { e.2 with committed := true })
          else e)) = _
      rw [alistLookup_mark, hl]
      rfl

/-- Witness for C4: a concrete double commit of reservation `"r1"`. -/
theorem commit_at_most_once_per_reservation_witness :
    handleCommit sampleCommitBody (handleCommit sampleCommitBody sampleReservedState).2 =
      (.err "Reservation already committed",
        (handleCommit sampleCommitBody sampleReservedState).2) :=
  (commit_at_most_once_per_reservation sampleCommitBody sampleCommitBody
    sampleReservedState rfl (by decide)).1

/-! ## C5: purge does not require the photo to be soft-deleted -/

/-- C5 counterexample: the claim "a photo in the Active state is never
removed by purge" is false: purging `samplePhoto` (whose `deletedAt` is
unset) succeeds and removes it. -/
theorem purge_active_photo_counterexample :
    samplePhoto.deletedAt = none ∧
    (handlePermanentDelete "p1" sampleState).1 = .ok ("k1", "t1") ∧
    (handlePermanentDelete "p1" sampleState).2.photos = [] ∧
    (handlePermanentDelete "p1" sampleState).2.totalBytes = 0 := by
  decide

/-- C5 amended: purge removes the first photo with the requested id and
subtracts its size from `totalBytes` regardless of whether `deletedAt` is
set; the handler performs no soft-deleted check, so the Purged state is
reachable directly from Active (the two-step gate is enforced only by the
client UI, not by the aggregate). -/
theorem purge_ignores_deletion_state (pid : String) (d : StorageData)
    (ph : PhotoMeta)
    (hfind : d.photos.find? (fun p => p.id == pid) = some ph) :
    ∃ l', removeFirst (fun p => p.id == pid) d.photos = some (ph, l') ∧
      handlePermanentDelete pid d =
        (.ok (ph.key, ph.thumbnailKey),
         { d with photos := l', totalBytes := d.totalBytes - ph.size }) := by
  obtain ⟨l', hrem⟩ := find?_removeFirst _ hfind
  refine ⟨l', hrem, ?_⟩
  unfold handlePermanentDelete
  rw [hrem]

/-- Witness for C5's amended statement: purging the concrete active photo. -/
theorem purge_ignores_deletion_state_witness :
    ∃ l', removeFirst (fun p => p.id == "p1") sampleState.photos =
        some (samplePhoto, l') ∧
      handlePermanentDelete "p1" sampleState =
        (.ok (samplePhoto.key, samplePhoto.thumbnailKey),
         { sampleState with photos := l', totalBytes := sampleState.totalBytes - samplePhoto.size }) :=
  purge_ignores_deletion_state "p1" sampleState samplePhoto (by decide)

/-! ## C6: restore on an already-active photo -/

/-- C6 counterexample: the claim "restore on an active photo returns a
no-op error" is false: on the concrete active photo the handler returns
`ok`, not an error (the state is indeed unchanged). -/
theorem restore_active_counterexample :
    samplePhoto.deletedAt = none ∧
    (handleRestore "p1" sampleState).1 = .ok () ∧
    (handleRestore "p1" sampleState).2 = sampleState := by
  decide

/-- C6 amended: restoring a photo whose `deletedAt` is already unset
succeeds with `ok` (not an error) and leaves the aggregate unchanged
(deleting an absent `deletedAt` is a no-op). -/
theorem restore_active_is_ok_and_noop (pid : String) (d : StorageData)
    (ph : PhotoMeta)
    (hfind : d.photos.find? (fun p => p.id == pid) = some ph)
    (hact : ph.deletedAt = none) :
    handleRestore pid d = (.ok (), d) := by
  unfold handleRestore
  have hfix : ({ ph with deletedAt := none } : PhotoMeta) = ph := by
    cases ph
    simp_all
  rw [modifyFirst_fix _ _ hfind hfix]

/-- Witness for C6: restoring the concrete active photo. -/
theorem restore_active_is_ok_and_noop_witness :
    handleRestore "p1" sampleState = (.ok (), sampleState) :=
  restore_active_is_ok_and_noop "p1" sampleState samplePhoto
    (by decide) (by decide)

/-! ## C8: softDelete then restore round-trips the aggregate -/

/-- C8: for an active photo, soft delete followed by restore returns the
aggregate to exactly the original state: the record is observably identical
(all fields equal) to before deletion, with `deletedAt` unset again. -/
theorem softDelete_restore_roundtrip (pid : String) (now : Int)
    (d : StorageData) (ph : PhotoMeta)
    (hfind : d.photos.find? (fun p => p.id == pid) = some ph)
    (hact : ph.deletedAt = none) :
    ∃ d1, handleSoftDelete pid now d = (.ok (), d1) ∧
      handleRestore pid d1 = (.ok (), d) := by
  have hpid := List.find?_some hfind
  have hpf : (fun p : PhotoMeta => p.id == pid)
      { ph with deletedAt := some now } = true := hpid
  have hgf : ({ { ph with deletedAt := some now } with deletedAt := none } :
      PhotoMeta) = ph := by
    cases ph
    simp_all
  obtain ⟨l', h1, h2⟩ := modifyFirst_roundtrip (fun p : PhotoMeta => p.id == pid)
    (fun p => { p with deletedAt := some now })
    (fun p => { p with deletedAt := none }) hfind hpf hgf
  refine ⟨{ d with photos := l' }, handleSoftDelete_eq pid now d _ l' h1, ?_⟩
  exact handleRestore_eq pid { d with photos := l' } ph d.photos h2

/-- Witness for C8: the round trip on the concrete active photo. -/
theorem softDelete_restore_roundtrip_witness :
    ∃ d1, handleSoftDelete "p1" 77 sampleState = (.ok (), d1) ∧
      handleRestore "p1" d1 = (.ok (), sampleState) :=
  softDelete_restore_roundtrip "p1" 77 sampleState samplePhoto
    (by decide) (by decide)

/-! ## C10: softDelete on an already-deleted photo -/

/-- C10: soft-deleting a photo that is already soft-deleted succeeds
(returns `ok`), overwrites `deletedAt` with the current time, and thereby
resets the 30-day auto-purge retention clock: the swept/kept decision for
the updated record depends only on the new `deletedAt`, not the old one. -/
theorem softDelete_overwrites_deletedAt (pid : String) (now told : Int)
    (d : StorageData) (ph : PhotoMeta)
    (hfind : d.photos.find? (fun p => p.id == pid) = some ph)
    (_hdel : ph.deletedAt = some told) :
    ∃ l', handleSoftDelete pid now d = (.ok (), { d with photos := l' }) ∧
      l'.find? (fun p => p.id == pid) =
        some { ph with deletedAt := some now } ∧
      (∀ now2 : Int, keepPhoto now2 { ph with deletedAt := some now } =
        !decide (now < now2 - 2592000000)) := by
  have hpid := List.find?_some hfind
  obtain ⟨l', h1, hfind'⟩ := modifyFirst_of_find?
    (fun p : PhotoMeta => p.id == pid)
    (fun p => { p with deletedAt := some now }) hfind
  exact ⟨l', handleSoftDelete_eq pid now d _ l' h1, hfind' hpid, fun now2 => rfl⟩

/-- Witness for C10: re-deleting the concrete already-deleted photo at time
90 keeps it alive for sweeps until 90 + 30 days even though its original
`deletedAt` was 0. -/
theorem softDelete_overwrites_deletedAt_witness :
    ∃ l', handleSoftDelete "p3" 90 sampleDeletedState =
        (.ok (), { sampleDeletedState with photos := l' }) ∧
      l'.find? (fun p => p.id == "p3") =
        some { { samplePhoto with id := "p3", deletedAt := some 0 } with
          deletedAt := some 90 } ∧
      (∀ now2 : Int, keepPhoto now2
          { { samplePhoto with id := "p3", deletedAt := some 0 } with
            deletedAt := some 90 } = !decide (90 < now2 - 2592000000)) :=
  softDelete_overwrites_deletedAt "p3" 90 0 sampleDeletedState
    { samplePhoto with id := "p3", deletedAt := some 0 } (by decide) (by decide)

/-! ## C3: the admission rule of reserve -/

/-- C3: `reserve` is rejected exactly when today's upload count has reached
`maxUploadsPerDay`, or else when `totalBytes + pendingReservedBytes(now) +
candidateBytes` exceeds `maxTotalBytes`; concretely, three successive
100-byte reservations against a 250-byte cap with zero usage succeed twice
and fail the third time. -/
theorem reserve_admission_rule :
    (∀ (body : ReserveBody) (now : Int) (today weekAgoKey newId : String)
        (d : StorageData),
      (handleReserve body now today weekAgoKey newId d).1.isOk = false ↔
        (countGet today d.dailyUploads ≥ body.maxUploadsPerDay ∨
         d.totalBytes + pendingReservedBytes now d.reservations + body.totalSize >
           body.maxTotalBytes)) ∧
    (handleReserve reserveBody100 0 "2024-01-10" "2024-01-03" "r1"
        initialData).1.isOk = true ∧
    (handleReserve reserveBody100 0 "2024-01-10" "2024-01-03" "r2"
        reserveState1).1.isOk = true ∧
    (handleReserve reserveBody100 0 "2024-01-10" "2024-01-03" "r3"
        reserveState2).1.isOk = false := by
  refine ⟨?_, by decide, by decide, by decide⟩
  intro body now today weekAgoKey newId d
  unfold handleReserve
  dsimp only
  split_ifs with h1 h2 <;> simp_all [OpResult.isOk]

/-- Witness for C3: the rule instantiated at the third (rejected)
reservation of the concrete scenario. -/
theorem reserve_admission_rule_witness :
    (handleReserve reserveBody100 0 "2024-01-10" "2024-01-03" "r3"
        reserveState2).1.isOk = false ↔
      (countGet "2024-01-10" reserveState2.dailyUploads ≥
          reserveBody100.maxUploadsPerDay ∨
        reserveState2.totalBytes +
          pendingReservedBytes 0 reserveState2.reservations +
          reserveBody100.totalSize > reserveBody100.maxTotalBytes) :=
  reserve_admission_rule.1 reserveBody100 0 "2024-01-10" "2024-01-03" "r3"
    reserveState2

/-! ## C9: toggleFavorite flips membership -/

theorem mem_toggleFav (u : String) (l : List String) (h : l.Nodup) :
    u ∈ toggleFav u l ↔ u ∉ l := by
  unfold toggleFav
  by_cases hc : l.contains u = true
  · have hu : u ∈ l := List.elem_iff.mp hc
    rw [if_pos hc]
    simp [h.not_mem_erase, hu]
  · have hu : u ∉ l := fun hm => hc (List.elem_iff.mpr hm)
    rw [if_neg hc]
    simp [hu]

theorem nodup_toggleFav (u : String) (l : List String) (h : l.Nodup) :
    (toggleFav u l).Nodup := by
  unfold toggleFav
  by_cases hc : l.contains u = true
  · rw [if_pos hc]
    exact h.erase u
  · rw [if_neg hc]
    have hu : u ∉ l := fun hm => hc (List.elem_iff.mpr hm)
    refine List.nodup_append.mpr ⟨h, List.nodup_singleton u, fun a ha hb => ?_⟩
    simp only [List.mem_singleton] at hb
    subst hb
    exact hu ha

/-- C9: `toggleFavorite` flips the user's membership in the photo's
`favoritedBy` set and returns the updated set; after toggling twice the user
is a member after the first call exactly when they were not one before, and
after the second call membership returns to the original, so the double
toggle restores the original membership. -/
theorem toggleFavorite_flips_membership (pid user : String) (d : StorageData)
    (ph : PhotoMeta)
    (hfind : d.photos.find? (fun p => p.id == pid) = some ph)
    (hnodup : (ph.favoritedBy.getD []).Nodup) :
    ∃ (d1 d2 : StorageData) (fav1 fav2 : List String),
      handleToggleFavorite pid user d = (.ok fav1, d1) ∧
      handleToggleFavorite pid user d1 = (.ok fav2, d2) ∧
      fav1 = toggleFav user (ph.favoritedBy.getD []) ∧
      (user ∈ fav1 ↔ user ∉ ph.favoritedBy.getD []) ∧
      (user ∈ fav2 ↔ user ∈ ph.favoritedBy.getD []) := by
  have hid := @List.find?_some PhotoMeta (fun p => p.id == pid) ph d.photos hfind
  have hpf : (fun p : PhotoMeta => p.id == pid) { ph with favoritedBy := some (toggleFav user (ph.favoritedBy.getD [])) } = true := hid
  obtain ⟨l1, h1, hfind1⟩ := modifyFirst_of_find?
    (fun p : PhotoMeta => p.id == pid)
    (fun p => { p with favoritedBy := some (toggleFav user (p.favoritedBy.getD [])) })
    hfind
  obtain ⟨l2, h2, _⟩ := modifyFirst_of_find?
    (fun p : PhotoMeta => p.id == pid)
    (fun p => { p with favoritedBy := some (toggleFav user (p.favoritedBy.getD [])) })
    (hfind1 hpf)
  have e1 := handleToggleFavorite_eq pid user d _ l1 h1
  have e2 := handleToggleFavorite_eq pid user { d with photos := l1 } _ l2 h2
  refine ⟨_, _, _, _, e1, e2, rfl, mem_toggleFav user _ hnodup, ?_⟩
  show user ∈ toggleFav user (toggleFav user (ph.favoritedBy.getD [])) ↔
    user ∈ ph.favoritedBy.getD []
  rw [mem_toggleFav user _ (nodup_toggleFav user _ hnodup),
    mem_toggleFav user _ hnodup]
  tauto

/-- Witness for C9: toggling `"arda"` twice on the concrete photo whose
favorite set starts empty. -/
theorem toggleFavorite_flips_membership_witness :
    ∃ (d1 d2 : StorageData) (fav1 fav2 : List String),
      handleToggleFavorite "p1" "arda" sampleState = (.ok fav1, d1) ∧
      handleToggleFavorite "p1" "arda" d1 = (.ok fav2, d2) ∧
      fav1 = toggleFav "arda" (samplePhoto.favoritedBy.getD []) ∧
      ("arda" ∈ fav1 ↔ "arda" ∉ samplePhoto.favoritedBy.getD []) ∧
      ("arda" ∈ fav2 ↔ "arda" ∈ samplePhoto.favoritedBy.getD []) :=
  toggleFavorite_flips_membership "p1" "arda" sampleState samplePhoto
    (by decide) (by decide)

/-! ## C7: the retention boundary of the sweep -/

/-- C7 counterexample: a photo soft-deleted exactly 30 days ago
(`now - deletedAt = 30 days`, so `now - deletedAt ≥ 30 days` holds) is NOT
removed by the sweep — the code removes only photos strictly older than
30 days. -/
theorem sweep_thirty_day_boundary_counterexample :
    (∀ p ∈ sampleDeletedState.photos, p.deletedAt = some 0) ∧
    ((2592000000 : Int) - 0 ≥ 2592000000) ∧
    (autoPurgeOldDeleted 2592000000 sampleDeletedState).photos =
      sampleDeletedState.photos ∧
    (autoPurgeOldDeleted 2592000000 sampleDeletedState).totalBytes = 100 := by
  decide

/-- C7 amended: the sweep removes exactly the photos with `deletedAt` set
whose deletion age is strictly greater than 30 days
(`deletedAt < now - 30d`), subtracting each removed record's size from
`totalBytes`; it runs at the start of every gallery read; and a photo
soft-deleted 31 days ago is removed and no longer listed by the recycle-bin
read. -/
theorem sweep_removes_strictly_older_than_30_days (now : Int) (d : StorageData) :
    ((autoPurgeOldDeleted now d).photos = d.photos.filter (keepPhoto now)) ∧
    (∀ (p : PhotoMeta) (t : Int), p.deletedAt = some t →
      (keepPhoto now p = false ↔ t < now - 2592000000)) ∧
    (∀ p : PhotoMeta, p.deletedAt = none → keepPhoto now p = true) ∧
    ((autoPurgeOldDeleted now d).totalBytes =
      d.totalBytes - photoSum (d.photos.filter (fun p => !keepPhoto now p))) ∧
    ((handleGetGallery now d).2 = autoPurgeOldDeleted now d) ∧
    (∀ (p : PhotoMeta) (t : Int), p.deletedAt = some t →
      t + 2592000000 < now →
      p ∉ (autoPurgeOldDeleted now d).photos ∧
      p ∉ handleGetRecycleBin (autoPurgeOldDeleted now d)) := by
  refine ⟨(autoPurge_state now d).1, ?_, ?_, (autoPurge_state now d).2, rfl, ?_⟩
  · intro p t h
    unfold keepPhoto
    rw [h]
    simp
  · intro p h
    unfold keepPhoto
    rw [h]
  · intro p t h hlt
    have hk : keepPhoto now p = false := by
      unfold keepPhoto
      rw [h]
      simp
      omega
    constructor
    · intro hmem
      rw [(autoPurge_state now d).1] at hmem
      have hkeep := (List.mem_filter.mp hmem).2
      rw [hk] at hkeep
      exact absurd hkeep (by simp)
    · intro hmem
      unfold handleGetRecycleBin at hmem
      have h1 := List.mem_mergeSort.mp hmem
      have h2 := (List.mem_filter.mp h1).1
      rw [(autoPurge_state now d).1] at h2
      have hkeep := (List.mem_filter.mp h2).2
      rw [hk] at hkeep
      exact absurd hkeep (by simp)

/-- Witness for C7's amended statement: the concrete photo soft-deleted at
time 0 is gone 31 days later, from the swept photo list and from the
recycle-bin listing. -/
theorem sweep_removes_strictly_older_witness :
    ({ samplePhoto with id := "p3", deletedAt := some 0 } : PhotoMeta) ∉
      (autoPurgeOldDeleted 2678400000 sampleDeletedState).photos ∧
    ({ samplePhoto with id := "p3", deletedAt := some 0 } : PhotoMeta) ∉
      handleGetRecycleBin (autoPurgeOldDeleted 2678400000 sampleDeletedState) :=
  (sweep_removes_strictly_older_than_30_days 2678400000 sampleDeletedState).2.2.2.2.2
    { samplePhoto with id := "p3", deletedAt := some 0 } 0 (by decide) (by decide)

/-! ## C2: the cap after commits -/

theorem pendingReservedBytes_eq (now : Int) (rs : List (String × Reservation)) :
    pendingReservedBytes now rs =
      (((rs.map (·.2)).filter
          (fun r => !r.committed && decide (now - r.createdAt < 3600000))).map
        Reservation.totalSize).sum := by
  unfold pendingReservedBytes
  rw [foldl_add_eq]
  simp

theorem map_snd_filter_pred (p : Reservation → Bool)
    (rs : List (String × Reservation)) :
    (rs.filter (fun e => p e.2)).map (·.2) = (rs.map (·.2)).filter p := by
  induction rs with
  | nil => rfl
  | cons e l ih =>
    by_cases hp : p e.2 = true <;> simp [List.filter_cons, hp, ih]

theorem filter_filter_sum {α : Type} (q r : α → Bool) (g : α → Int)
    (h : ∀ x, r x = true → q x = true) (l : List α) :
    (((l.filter q).filter r).map g).sum = ((l.filter r).map g).sum := by
  induction l with
  | nil => rfl
  | cons x xs ih =>
    by_cases hq : q x = true
    · by_cases hr : r x = true
      · simp only [List.filter_cons, hq, hr, if_true, List.map_cons,
          List.sum_cons, ih]
      · have hrf : r x = false := by simpa using hr
        simp only [List.filter_cons, hq, hrf, if_true, Bool.false_eq_true,
          if_false, ih]
    · have hqf : q x = false := by simpa using hq
      have hrf : r x = false := by
        cases hrx : r x
        · rfl
        · exact absurd (h x hrx) hq
      simp only [List.filter_cons, hqf, hrf, Bool.false_eq_true, if_false, ih]

theorem pending_gc (now : Int) (rs : List (String × Reservation)) :
    pendingReservedBytes now
        (rs.filter (fun e => !decide (e.2.createdAt < now - 7200000))) =
      pendingReservedBytes now rs := by
  rw [pendingReservedBytes_eq, pendingReservedBytes_eq,
    map_snd_filter_pred (fun r => !decide (r.createdAt < now - 7200000)) rs]
  apply filter_filter_sum
  intro x hx
  simp only [Bool.and_eq_true, Bool.not_eq_true', decide_eq_true_eq] at hx
  have hrecent : ¬(x.createdAt < now - 7200000) := by omega
  simp [hrecent]

theorem alistSet_fresh {β : Type} (k : String) (v : β) (l : List (String × β))
    (h : ∀ e ∈ l, (e.1 == k) = false) :
    alistSet k v l = l ++ [(k, v)] := by
  unfold alistSet
  have hany : l.any (fun e => e.1 == k) = false := by
    rw [List.any_eq_false]
    intro x hx
    simp [h x hx]
  rw [hany]
  simp

theorem pending_cons (now : Int) (e : String × Reservation)
    (l : List (String × Reservation)) :
    pendingReservedBytes now (e :: l) =
      (if (!e.2.committed && decide (now - e.2.createdAt < 3600000)) = true
        then e.2.totalSize else 0) + pendingReservedBytes now l := by
  rw [pendingReservedBytes_eq, pendingReservedBytes_eq]
  by_cases hl : (!e.2.committed && decide (now - e.2.createdAt < 3600000)) = true <;>
    simp [List.filter_cons, hl]

theorem pending_append_one (now : Int) (rs : List (String × Reservation))
    (e : String × Reservation) :
    pendingReservedBytes now (rs ++ [e]) =
      pendingReservedBytes now rs +
        (if (!e.2.committed && decide (now - e.2.createdAt < 3600000)) = true
          then e.2.totalSize else 0) := by
  rw [pendingReservedBytes_eq, pendingReservedBytes_eq]
  by_cases hl : (!e.2.committed && decide (now - e.2.createdAt < 3600000)) = true <;>
    simp [List.filter_append, List.filter_cons, hl]

theorem sum_filter_le_of_imp {α : Type} (q r : α → Bool) (g : α → Int) :
    ∀ l : List α, (∀ x, r x = true → q x = true) → (∀ x ∈ l, 0 ≤ g x) →
      ((l.filter r).map g).sum ≤ ((l.filter q).map g).sum := by
  intro l
  induction l with
  | nil => intro _ _; simp
  | cons x xs ih =>
    intro himp hnn
    have hnn' : ∀ y ∈ xs, 0 ≤ g y := fun y hy => hnn y (List.mem_cons_of_mem _ hy)
    have ihx := ih himp hnn'
    by_cases hq : q x = true
    · by_cases hr : r x = true
      · simp only [List.filter_cons, hq, hr, if_true, List.map_cons, List.sum_cons]
        omega
      · simp only [List.filter_cons, hq, hr, if_true, Bool.false_eq_true, if_false,
          List.map_cons, List.sum_cons]
        have := hnn x (List.mem_cons_self x xs)
        omega
    · have hr : r x = false := by
        cases hrx : r x
        · rfl
        · exact absurd (himp x hrx) hq
      simp only [List.filter_cons, hq, hr, Bool.false_eq_true, if_false]
      exact ihx

theorem pending_antitone (now later : Int) (h : now ≤ later)
    (rs : List (String × Reservation))
    (hnn : ∀ e ∈ rs, 0 ≤ e.2.totalSize) :
    pendingReservedBytes later rs ≤ pendingReservedBytes now rs := by
  rw [pendingReservedBytes_eq, pendingReservedBytes_eq]
  apply sum_filter_le_of_imp
  · intro x hx
    simp only [Bool.and_eq_true, Bool.not_eq_true', decide_eq_true_eq] at hx ⊢
    exact ⟨hx.1, by omega⟩
  · intro x hx
    simp only [List.mem_map] at hx
    obtain ⟨e, he, rfl⟩ := hx
    exact hnn e he

theorem pending_nonneg (now : Int) (rs : List (String × Reservation))
    (hnn : ∀ e ∈ rs, 0 ≤ e.2.totalSize) :
    0 ≤ pendingReservedBytes now rs := by
  rw [pendingReservedBytes_eq]
  apply List.sum_nonneg
  intro x hx
  simp only [List.mem_map, List.mem_filter] at hx
  obtain ⟨rr, ⟨hmem, -⟩, rfl⟩ := hx
  obtain ⟨e, he, rfl⟩ := hmem
  exact hnn e he

theorem map_eq_self_of {α : Type} (f : α → α) :
    ∀ l : List α, (∀ x ∈ l, f x = x) → l.map f = l := by
  intro l
  induction l with
  | nil => intro _; rfl
  | cons x xs ih =>
    intro h
    simp only [List.map_cons]
    rw [h x (List.mem_cons_self x xs), ih (fun y hy => h y (List.mem_cons_of_mem _ hy))]

theorem pending_mark (now : Int) (k : String) (r : Reservation)
    (hc : r.committed = false) (hlive : now - r.createdAt < 3600000) :
    ∀ rs : List (String × Reservation), (rs.map Prod.fst).Nodup →
      alistLookup k rs = some r →
      pendingReservedBytes now (rs.map (fun e =>
          if e.1 == k then (e.1, { e.2 with committed := true }) else e)) =
        pendingReservedBytes now rs - r.totalSize := by
  intro rs
  induction rs with
  | nil => intro _ hl; simp [alistLookup] at hl
  | cons e l ih =>
    intro hnodup hl
    by_cases he : (e.1 == k) = true
    · have hr : e.2 = r := by
        unfold alistLookup at hl
        rw [@List.find?_cons_of_pos (String × Reservation)
          (fun x => x.1 == k) e l he] at hl
        simpa using hl
      have hek : e.1 = k := by simpa using he
      have hcons : (e.1 : String) ∉ l.map Prod.fst ∧ (l.map Prod.fst).Nodup := by
        rw [List.map_cons] at hnodup
        exact List.nodup_cons.mp hnodup
      have htail : ∀ x ∈ l, (x.1 == k) = false := by
        intro x hx
        by_cases hxk : (x.1 == k) = true
        · exfalso
          apply hcons.1
          have hx1 : x.1 = k := by simpa using hxk
          rw [hek, ← hx1]
          exact List.mem_map_of_mem Prod.fst hx
        · simpa using hxk
      have hmap : l.map (fun e =>
          if e.1 == k then (e.1, { e.2 with committed := true }) else e) = l := by
        apply map_eq_self_of
        intro x hx
        simp [htail x hx]
      simp only [List.map_cons, if_pos he]
      rw [hmap, pending_cons, pending_cons, hr]
      have hnew : ¬((!(true : Bool) &&
          decide (now - r.createdAt < 3600000)) = true) := by
        simp
      have hold : (!r.committed && decide (now - r.createdAt < 3600000)) = true := by
        simp [hc]
        omega
      simp only [hold, if_true]
      rw [if_neg hnew]
      ring
    · have hnodup' : (l.map Prod.fst).Nodup := by
        rw [List.map_cons] at hnodup
        exact (List.nodup_cons.mp hnodup).2
      have hl' : alistLookup k l = some r := by
        unfold alistLookup at hl ⊢
        rwa [@List.find?_cons_of_neg (String × Reservation)
          (fun x => x.1 == k) e l (by simpa using he)] at hl
      simp only [List.map_cons, if_neg he]
      rw [pending_cons, pending_cons, ih hnodup' hl']
      ring

theorem handleReserve_ok (body : ReserveBody) (now : Int)
    (today weekAgoKey newId : String) (d : StorageData)
    (h : (handleReserve body now today weekAgoKey newId d).1.isOk = true) :
    countGet today d.dailyUploads < body.maxUploadsPerDay ∧
    d.totalBytes + pendingReservedBytes now d.reservations + body.totalSize ≤
      body.maxTotalBytes ∧
    (handleReserve body now today weekAgoKey newId d).2.reservations =
      (alistSet newId (mkReservation newId body.fileCount body.totalSize now)
        d.reservations).filter
        (fun e => !decide (e.2.createdAt < now - 7200000)) ∧
    (handleReserve body now today weekAgoKey newId d).2.totalBytes =
      d.totalBytes := by
  unfold handleReserve at h ⊢
  dsimp only at h ⊢
  split_ifs at h ⊢ with h1 h2
  · simp [OpResult.isOk] at h
  · simp [OpResult.isOk] at h
  · exact ⟨by omega, by omega, rfl, rfl⟩

/-- C2 counterexample: commit performs no admission check against the
reservation, so the cap can be exceeded right after a successful commit:
reserving 0 bytes against a 250-byte cap succeeds, and committing a
1000-byte draft under that reservation also succeeds, leaving
`totalBytes = 1000 > 250`. -/
theorem cap_exceeded_after_commit_counterexample :
    (handleReserve reserveBody0 0 "2024-01-10" "2024-01-03" "r0"
        initialData).1.isOk = true ∧
    (handleCommit overCommitBody zeroReserveState).1.isOk = true ∧
    (handleCommit overCommitBody zeroReserveState).2.totalBytes = 1000 ∧
    ¬((handleCommit overCommitBody zeroReserveState).2.totalBytes ≤ 250) := by
  decide

/-- C2 amended: `totalBytes ≤ maxTotalBytes` holds immediately after a
successful commit provided the committed drafts' total size does not exceed
the reservation's reserved `totalSize` and the commit happens inside the
reservation's one-hour live window, starting from a state whose
`totalBytes + pendingReservedBytes(now)` respects the cap — which every
successful reserve (with a fresh id) establishes, and which only shrinks as
time passes.  Without those provisos the admission check at reserve time
guarantees nothing: commit itself never checks the drafts (see the
counterexample). -/
theorem cap_safe_commit :
    (∀ (body : ReserveBody) (now : Int) (today weekAgoKey newId : String)
        (d : StorageData),
      (∀ e ∈ d.reservations, (e.1 == newId) = false) →
      (handleReserve body now today weekAgoKey newId d).1.isOk = true →
      (handleReserve body now today weekAgoKey newId d).2.totalBytes +
        pendingReservedBytes now
          (handleReserve body now today weekAgoKey newId d).2.reservations ≤
        body.maxTotalBytes) ∧
    (∀ (now later : Int) (rs : List (String × Reservation)),
      now ≤ later → (∀ e ∈ rs, 0 ≤ e.2.totalSize) →
      pendingReservedBytes later rs ≤ pendingReservedBytes now rs) ∧
    (∀ (body : CommitBody) (d : StorageData) (maxB now : Int) (r : Reservation),
      d.totalBytes + pendingReservedBytes now d.reservations ≤ maxB →
      (d.reservations.map Prod.fst).Nodup →
      (∀ e ∈ d.reservations, 0 ≤ e.2.totalSize) →
      alistLookup body.reservationId d.reservations = some r →
      r.committed = false →
      now - r.createdAt < 3600000 →
      (body.photos.map PhotoDraft.size).sum ≤ r.totalSize →
      (handleCommit body d).1.isOk = true ∧
      (handleCommit body d).2.totalBytes +
        pendingReservedBytes now (handleCommit body d).2.reservations ≤ maxB ∧
      (handleCommit body d).2.totalBytes ≤ maxB) := by
  refine ⟨?_, fun now later rs h hnn => pending_antitone now later h rs hnn, ?_⟩
  · intro body now today weekAgoKey newId d hfresh hok
    obtain ⟨h1, h2, hres, htot⟩ :=
      handleReserve_ok body now today weekAgoKey newId d hok
    rw [htot, hres, alistSet_fresh _ _ _ hfresh, pending_gc, pending_append_one]
    have hdiff : now - now < 3600000 := by omega
    have hcond : (!(newId, mkReservation newId body.fileCount body.totalSize
          now).2.committed &&
        decide (now - (newId, mkReservation newId body.fileCount
          body.totalSize now).2.createdAt < 3600000)) = true := by
      simp [mkReservation, hdiff]
    rw [if_pos hcond]
    show d.totalBytes + (pendingReservedBytes now d.reservations +
      body.totalSize) ≤ body.maxTotalBytes
    omega
  · intro body d maxB now r hcap hnodup hnn hl hc hlive hsum
    rw [handleCommit_uncommitted body d r hl hc]
    have hmark := pending_mark now body.reservationId r hc hlive
      d.reservations hnodup hl
    have hnn' : ∀ e ∈ d.reservations.map (fun e =>
        if e.1 == body.reservationId then (e.1, { e.2 with committed := true })
        else e), 0 ≤ e.2.totalSize := by
      intro e he
      obtain ⟨e0, he0, rfl⟩ := List.mem_map.mp he
      by_cases hk : (e0.1 == body.reservationId) = true
      · simpa [hk] using hnn e0 he0
      · simpa [hk] using hnn e0 he0
    have hpend := pending_nonneg now _ hnn'
    refine ⟨rfl, ?_, ?_⟩
    · show d.totalBytes + (body.photos.map PhotoDraft.size).sum +
        pendingReservedBytes now (d.reservations.map (fun e =>
          if e.1 == body.reservationId then
            (e.1, { e.2 with committed := true }) else e)) ≤ maxB
      rw [hmark]
      omega
    · show d.totalBytes + (body.photos.map PhotoDraft.size).sum ≤ maxB
      rw [hmark] at hpend
      omega

/-- Witness for C2's amended statement: the concrete empty commit of the
live 100-byte reservation keeps the 250-byte cap. -/
theorem cap_safe_commit_witness :
    (handleCommit sampleCommitBody sampleReservedState).1.isOk = true ∧
    (handleCommit sampleCommitBody sampleReservedState).2.totalBytes +
      pendingReservedBytes 0
        (handleCommit sampleCommitBody sampleReservedState).2.reservations ≤
      250 ∧
    (handleCommit sampleCommitBody sampleReservedState).2.totalBytes ≤ 250 :=
  cap_safe_commit.2.2 sampleCommitBody sampleReservedState 250 0
    { id := "r1", fileCount := 1, totalSize := 100, createdAt := 0,
      committed := false }
    (by decide) (by decide) (by decide) (by decide) rfl (by decide) (by decide)
